import Mathlib

/-!
Shallow embedding of `scripts/gen_vectors.py`, an AES-128 test-vector
generator.  The script has two parts:

* `openssl_aes128_ecb_encrypt` — the oracle adapter: decodes the two hex
  strings, asserts both are 16 bytes, spawns an external `openssl`
  process (modelled as an opaque function `Cap` from the key hex string
  and the plaintext bytes to a process result), checks its exit status,
  asserts the output is 16 bytes, and returns the ciphertext as hex.
* `main` — the vector generator: one known-answer call, then `n - 1`
  random vectors, a single serialization step, a single file write and a
  reported count.

Bytes are modelled as `Nat` (with `< 256` hypotheses where the value
range matters), the external process as a pure function, the random
source `secrets.token_bytes` as a stream of byte lists indexed by draw
number, the output file as the list of write events to the sink, and
Python exceptions as an `Except` result.
-/

set_option autoImplicit false

namespace GenVectors

/-- Result of spawning the external process (`subprocess.run`): exit
status, captured standard output bytes, captured standard error text. -/
structure ProcResult where
  returncode : Int
  stdout : List Nat
  stderr : String
deriving Repr, DecidableEq

/-- The external encryption capability: the `openssl` invocation receives
the key as a hex string on the command line (`-K key_hex`) and the
plaintext as raw bytes on standard input. -/
abbrev Cap := String → List Nat → ProcResult

/-- Python exceptions the script can raise, as a closed error type:
`ValueError` from `bytes.fromhex`, `AssertionError` from the two
`assert` statements, `RuntimeError` with its message. -/
inductive PyError where
  | valueError
  | assertionError
  | runtimeError (msg : String)
deriving Repr, DecidableEq

/-- Value of a single hex digit character (`0`-`9`, `a`-`f`, `A`-`F`),
or `none` for any other character. -/
def hexDigitVal (c : Char) : Option Nat :=
  if 48 ≤ c.toNat ∧ c.toNat ≤ 57 then some (c.toNat - 48)
  else if 97 ≤ c.toNat ∧ c.toNat ≤ 102 then some (c.toNat - 87)
  else if 65 ≤ c.toNat ∧ c.toNat ≤ 70 then some (c.toNat - 55)
  else none

/-- Parse a list of hex-digit characters, two per byte; `none` on an odd
count or a non-hex character (Python raises `ValueError`). -/
def parseHexPairs : List Char → Option (List Nat)
  | [] => some []
  | [_] => none
  | c1 :: c2 :: rest =>
    match hexDigitVal c1, hexDigitVal c2, parseHexPairs rest with
    | some hi, some lo, some bs => some ((16 * hi + lo) :: bs)
    | _, _, _ => none

/-- `bytes.fromhex`: ASCII whitespace is ignored, then each byte is two
hex digits. -/
def bytes_fromhex (s : String) : Option (List Nat) :=
  parseHexPairs (s.data.filter fun c => !c.isWhitespace)

/-- Lowercase hex digit character for a value `< 16` (as produced by
Python's `bytes.hex()`). -/
def hexDigit (n : Nat) : Char :=
  if n < 10 then Char.ofNat (48 + n) else Char.ofNat (87 + n)

/-- The character list of `bytes.hex()`: two lowercase hex digits per
byte, most significant first. -/
def hexChars : List Nat → List Char
  | [] => []
  | b :: bs => hexDigit (b / 16) :: hexDigit (b % 16) :: hexChars bs

/-- `bytes.hex()`: lowercase hex string of a byte list. -/
def bytesHex (bs : List Nat) : String :=
  String.mk (hexChars bs)

/-- The oracle adapter `openssl_aes128_ecb_encrypt(key_hex, pt_hex)`.
Returns the result (ciphertext hex on success, the raised exception on
failure) paired with the number of times the external capability was
invoked (0 or 1). -/
def openssl_aes128_ecb_encrypt (cap : Cap) (key_hex pt_hex : String) :
    Except PyError String × Nat :=
  match bytes_fromhex key_hex with
  | none => (.error .valueError, 0)
  | some key =>
    match bytes_fromhex pt_hex with
    | none => (.error .valueError, 0)
    | some pt =>
      if key.length = 16 ∧ pt.length = 16 then
        let p := cap key_hex pt
        if p.returncode ≠ 0 then
          (.error (.runtimeError ("OpenSSL failed:\n" ++ p.stderr)), 1)
        else if p.stdout.length = 16 then
          (.ok (bytesHex p.stdout), 1)
        else
          (.error .assertionError, 1)
      else
        (.error .assertionError, 0)

/-- The hard-coded known-answer key hex string (`kat_key` in the script). -/
def kat_key : String := "000102030405060708090a0b0c0d0e0f"

/-- The hard-coded known-answer plaintext hex string (`kat_pt`). -/
def kat_pt : String := "00112233445566778899aabbccddeeff"

/-- The decoded bytes of `kat_key`. -/
def katKeyBytes : List Nat :=
  [0x00, 0x01, 0x02, 0x03, 0x04, 0x05, 0x06, 0x07,
   0x08, 0x09, 0x0a, 0x0b, 0x0c, 0x0d, 0x0e, 0x0f]

/-- The decoded bytes of `kat_pt`. -/
def katPtBytes : List Nat :=
  [0x00, 0x11, 0x22, 0x33, 0x44, 0x55, 0x66, 0x77,
   0x88, 0x99, 0xaa, 0xbb, 0xcc, 0xdd, 0xee, 0xff]

/-- The random-vector loop of `main` (`for _ in range(n - 1)`), with `k`
iterations left and `i` iterations already done.  Each iteration draws
two fresh 16-byte values (`rand (2*i)` for the key, `rand (2*i+1)` for
the plaintext, mirroring the two `secrets.token_bytes(16)` calls in
order), calls the adapter, and on success appends one line.  Returns the
lines in generation order (or the first raised error) paired with the
number of external-capability invocations made. -/
def genRandomLines (cap : Cap) (rand : Nat → List Nat) :
    Nat → Nat → Except PyError (List String) × Nat
  | 0, _ => (.ok [], 0)
  | Nat.succ k, i =>
    let key_hex := bytesHex (rand (2 * i))
    let pt_hex := bytesHex (rand (2 * i + 1))
    match openssl_aes128_ecb_encrypt cap key_hex pt_hex with
    | (.error e, c) => (.error e, c)
    | (.ok ct_hex, c) =>
      match genRandomLines cap rand k (i + 1) with
      | (.error e, c2) => (.error e, c + c2)
      | (.ok rest, c2) =>
        (.ok ((key_hex ++ " " ++ pt_hex ++ " " ++ ct_hex) :: rest), c + c2)

instance exceptDecEq {ε α : Type} [DecidableEq ε] [DecidableEq α] :
    DecidableEq (Except ε α) := fun a b =>
  match a, b with
  | .ok x, .ok y =>
    if h : x = y then isTrue (by rw [h]) else isFalse (by simp [h])
  | .error x, .error y =>
    if h : x = y then isTrue (by rw [h]) else isFalse (by simp [h])
  | .ok _, .error _ => isFalse (by simp)
  | .error _, .ok _ => isFalse (by simp)

/-- Observable outcome of one run of `main`: the sequence of contents
written to the output sink (the script opens and writes the file at most
once, at the end), the number of external-capability invocations, and
either the reported count (`len(lines)` from the final `print`) or the
exception that aborted the run. -/
structure RunOutcome where
  writes : List String
  oracleCalls : Nat
  result : Except PyError Nat
deriving Repr, DecidableEq

/-- The script's `main(n)`: known-answer vector first, then `n - 1`
random vectors, then one write of all lines joined by newlines plus a
trailing newline, then the reported count.  `n` is an `Int` because the
script never validates the command-line count (`range(n - 1)` is simply
empty for `n ≤ 1`). -/
def main (cap : Cap) (rand : Nat → List Nat) (n : Int) : RunOutcome :=
  match openssl_aes128_ecb_encrypt cap kat_key kat_pt with
  | (.error e, c) => { writes := [], oracleCalls := c, result := .error e }
  | (.ok kat_ct, c) =>
    match genRandomLines cap rand (n - 1).toNat 0 with
    | (.error e, c2) =>
      { writes := [], oracleCalls := c + c2, result := .error e }
    | (.ok rest, c2) =>
      let lines := (kat_key ++ " " ++ kat_pt ++ " " ++ kat_ct) :: rest
      { writes := [String.intercalate "\n" lines ++ "\n"],
        oracleCalls := c + c2,
        result := .ok lines.length }

/-- A lowercase hexadecimal digit character, as appearing in the output
fields. -/
def isLowerHexDigit (c : Char) : Bool :=
  (48 ≤ c.toNat && c.toNat ≤ 57) || (97 ≤ c.toNat && c.toNat ≤ 102)

/-- A well-formed output field: exactly 32 lowercase hex characters. -/
def goodField (s : String) : Prop :=
  s.length = 32 ∧ s.data.all isLowerHexDigit = true

/-- A well-behaved external capability: every invocation exits with
status 0 and produces exactly 16 bytes of output. -/
def GoodCap (cap : Cap) : Prop :=
  ∀ kh pt, (cap kh pt).returncode = 0 ∧ (cap kh pt).stdout.length = 16 ∧
    ∀ b ∈ (cap kh pt).stdout, b < 256

/-- A well-behaved randomness source: every draw is 16 bytes. -/
def GoodRand (rand : Nat → List Nat) : Prop :=
  ∀ i, (rand i).length = 16 ∧ ∀ b ∈ rand i, b < 256

/-- A concrete capability returning the all-zero block, used to
instantiate theorems: it succeeds on every call but its answer for the
known-answer pair is not the canonical AES-128 ciphertext. -/
def capZero : Cap :=
  fun _ _ => { returncode := 0, stdout := List.replicate 16 0, stderr := "" }

/-- A concrete capability that always fails with exit status 1. -/
def capFail : Cap :=
  fun _ _ => { returncode := 1, stdout := [], stderr := "bad decrypt" }

/-- A concrete capability that exits with status 0 but produces only 15
bytes of output. -/
def capShort : Cap :=
  fun _ _ => { returncode := 0, stdout := List.replicate 15 0, stderr := "" }

/-- A concrete randomness source returning the all-zero block. -/
def randZero : Nat → List Nat :=
  fun _ => List.replicate 16 0

/-- A second presentation of `capZero`, definitionally but not
syntactically identical. -/
def capZeroAlt : Cap :=
  fun _ _ => { returncode := 0, stdout := List.replicate (8 + 8) 0, stderr := "" }

/-- A second presentation of `randZero`. -/
def randZeroAlt : Nat → List Nat :=
  fun _ => List.replicate (8 + 8) 0

/-- The line produced for random vector `j` (0-based among the random
vectors) by a successful run. -/
def lineAt (cap : Cap) (rand : Nat → List Nat) (j : Nat) : String :=
  bytesHex (rand (2 * j)) ++ " " ++ bytesHex (rand (2 * j + 1)) ++ " " ++
    bytesHex (cap (bytesHex (rand (2 * j))) (rand (2 * j + 1))).stdout

/-- The line produced for the known-answer vector by a successful run. -/
def katLine (cap : Cap) : String :=
  kat_key ++ " " ++ kat_pt ++ " " ++ bytesHex (cap kat_key katPtBytes).stdout

end GenVectors

namespace GenVectors

lemma hexDigitVal_hexDigit : ∀ n < 16, hexDigitVal (hexDigit n) = some n := by
  decide

lemma hexDigit_not_ws : ∀ n < 16, (hexDigit n).isWhitespace = false := by
  decide

lemma hexDigit_lower : ∀ n < 16, isLowerHexDigit (hexDigit n) = true := by
  decide

lemma hexChars_length (bs : List Nat) : (hexChars bs).length = 2 * bs.length := by
  induction bs with
  | nil => rfl
  | cons b bs ih => simp [hexChars, ih]; omega

lemma bytesHex_length (bs : List Nat) : (bytesHex bs).length = 2 * bs.length := by
  show (hexChars bs).length = 2 * bs.length
  exact hexChars_length bs

lemma hexChars_all_lower (bs : List Nat) (hb : ∀ b ∈ bs, b < 256) :
    (hexChars bs).all isLowerHexDigit = true := by
  induction bs with
  | nil => rfl
  | cons b bs ih =>
    have hb0 : b < 256 := hb b (by simp)
    have h1 : b / 16 < 16 := by omega
    have h2 : b % 16 < 16 := by omega
    simp only [hexChars, List.all_cons, hexDigit_lower _ h1, hexDigit_lower _ h2,
      Bool.true_and]
    exact ih fun x hx => hb x (by simp [hx])

lemma filter_hexChars (bs : List Nat) (hb : ∀ b ∈ bs, b < 256) :
    ((hexChars bs).filter fun c => !c.isWhitespace) = hexChars bs := by
  induction bs with
  | nil => rfl
  | cons b bs ih =>
    have hb0 : b < 256 := hb b (by simp)
    have h1 : b / 16 < 16 := by omega
    have h2 : b % 16 < 16 := by omega
    simp only [hexChars, List.filter_cons, hexDigit_not_ws _ h1, hexDigit_not_ws _ h2,
      Bool.not_false, if_pos]
    rw [ih fun x hx => hb x (by simp [hx])]

lemma parse_hexChars (bs : List Nat) (hb : ∀ b ∈ bs, b < 256) :
    parseHexPairs (hexChars bs) = some bs := by
  induction bs with
  | nil => rfl
  | cons b bs ih =>
    have hb0 : b < 256 := hb b (by simp)
    have h1 : b / 16 < 16 := by omega
    have h2 : b % 16 < 16 := by omega
    have e : 16 * (b / 16) + b % 16 = b := by omega
    simp only [hexChars, parseHexPairs, hexDigitVal_hexDigit _ h1,
      hexDigitVal_hexDigit _ h2, ih fun x hx => hb x (by simp [hx]), e]

lemma fromhex_bytesHex (bs : List Nat) (hb : ∀ b ∈ bs, b < 256) :
    bytes_fromhex (bytesHex bs) = some bs := by
  show parseHexPairs ((hexChars bs).filter fun c => !c.isWhitespace) = some bs
  rw [filter_hexChars bs hb, parse_hexChars bs hb]

lemma adapter_ok (cap : Cap) (kh ph : String) (k p : List Nat)
    (hk : bytes_fromhex kh = some k) (hp : bytes_fromhex ph = some p)
    (hk16 : k.length = 16) (hp16 : p.length = 16)
    (hrc : (cap kh p).returncode = 0) (hlen : (cap kh p).stdout.length = 16) :
    openssl_aes128_ecb_encrypt cap kh ph =
      (.ok (bytesHex (cap kh p).stdout), 1) := by
  unfold openssl_aes128_ecb_encrypt
  rw [hk, hp]
  simp [hk16, hp16, hrc, hlen]

lemma adapter_exec_failed (cap : Cap) (kh ph : String) (k p : List Nat)
    (hk : bytes_fromhex kh = some k) (hp : bytes_fromhex ph = some p)
    (hk16 : k.length = 16) (hp16 : p.length = 16)
    (hrc : (cap kh p).returncode ≠ 0) :
    openssl_aes128_ecb_encrypt cap kh ph =
      (.error (.runtimeError ("OpenSSL failed:\n" ++ (cap kh p).stderr)), 1) := by
  unfold openssl_aes128_ecb_encrypt
  rw [hk, hp]
  simp [hk16, hp16, hrc]

lemma genRandomLines_ok (cap : Cap) (rand : Nat → List Nat)
    (hc : GoodCap cap) (hr : GoodRand rand) :
    ∀ k i, genRandomLines cap rand k i =
      (.ok ((List.range k).map fun j => lineAt cap rand (i + j)), k) := by
  intro k
  induction k with
  | zero => intro i; simp [genRandomLines]
  | succ k ih =>
    intro i
    have hkey := hr (2 * i)
    have hpt := hr (2 * i + 1)
    have hcap := hc (bytesHex (rand (2 * i))) (rand (2 * i + 1))
    simp only [genRandomLines]
    rw [adapter_ok cap _ _ (rand (2 * i)) (rand (2 * i + 1))
      (fromhex_bytesHex _ hkey.2) (fromhex_bytesHex _ hpt.2) hkey.1 hpt.1
      hcap.1 hcap.2.1]
    rw [ih (i + 1)]
    simp only [List.range_succ_eq_map, List.map_cons, List.map_map]
    refine congr_arg₂ Prod.mk ?_ (by omega)
    refine congrArg Except.ok ?_
    refine congr_arg₂ List.cons (by simp [lineAt]) ?_
    apply List.map_congr_left
    intro j _
    show lineAt cap rand (i + 1 + j) = lineAt cap rand (i + Nat.succ j)
    exact congrArg _ (by omega)

lemma main_ok (cap : Cap) (rand : Nat → List Nat)
    (hc : GoodCap cap) (hr : GoodRand rand) (n : Int) :
    main cap rand n =
      { writes := [String.intercalate "\n"
          (katLine cap :: (List.range (n - 1).toNat).map (lineAt cap rand)) ++ "\n"],
        oracleCalls := 1 + (n - 1).toNat,
        result := .ok (1 + (n - 1).toNat) } := by
  have hcap := hc kat_key katPtBytes
  have hkk : bytes_fromhex kat_key = some katKeyBytes := by decide
  have hkp : bytes_fromhex kat_pt = some katPtBytes := by decide
  unfold main
  rw [adapter_ok cap kat_key kat_pt katKeyBytes katPtBytes hkk hkp
    (by decide) (by decide) hcap.1 hcap.2.1]
  rw [genRandomLines_ok cap rand hc hr (n - 1).toNat 0]
  simp only [Nat.zero_add, katLine, List.length_cons, List.length_map,
    List.length_range]
  have h1 : (n - 1).toNat + 1 = 1 + (n - 1).toNat := by omega
  rw [h1]

lemma goodCap_capZero : GoodCap capZero := by
  intro kh pt
  refine ⟨rfl, by simp [capZero], ?_⟩
  intro b hb
  simp only [capZero, List.mem_replicate] at hb
  omega

lemma goodRand_randZero : GoodRand randZero := by
  intro i
  refine ⟨by simp [randZero], ?_⟩
  intro b hb
  simp only [randZero, List.mem_replicate] at hb
  omega

lemma capZero_stdout_bounded :
    ∀ kh pt, ∀ b ∈ (capZero kh pt).stdout, b < 256 := by
  intro kh pt b hb
  simp only [capZero, List.mem_replicate] at hb
  omega

lemma goodField_bytesHex (bs : List Nat) (hlen : bs.length = 16)
    (hb : ∀ b ∈ bs, b < 256) : goodField (bytesHex bs) := by
  constructor
  · show (bytesHex bs).length = 32
    rw [bytesHex_length, hlen]
  · show (hexChars bs).all isLowerHexDigit = true
    exact hexChars_all_lower bs hb

lemma goodField_kat_key : goodField kat_key :=
  ⟨by decide, by decide⟩

lemma goodField_kat_pt : goodField kat_pt :=
  ⟨by decide, by decide⟩

lemma intercalate_single (s l : String) : String.intercalate s [l] = l := rfl

lemma main_kat_only (cap : Cap) (rand : Nat → List Nat) (n : Int)
    (h0 : (n - 1).toNat = 0)
    (hrc : (cap kat_key katPtBytes).returncode = 0)
    (hlen : (cap kat_key katPtBytes).stdout.length = 16) :
    main cap rand n =
      { writes := [kat_key ++ " " ++ kat_pt ++ " " ++
          bytesHex (cap kat_key katPtBytes).stdout ++ "\n"],
        oracleCalls := 1,
        result := .ok 1 } := by
  unfold main
  rw [adapter_ok cap kat_key kat_pt katKeyBytes katPtBytes (by decide) (by decide)
    (by decide) (by decide) hrc hlen]
  rw [h0]
  simp only [genRandomLines]
  rw [intercalate_single]
  rfl

/-- C1 counterexample: with a capability that succeeds on every call but
answers the known-answer pair with the all-zero block — a ciphertext
other than `69c4e0d86a7b0430d8cdb78070b4c55a` — the run completes
successfully (reported count 1) and the wrong ciphertext is emitted in
the output file; the generator does not abort. -/
theorem C1_counterexample :
    (main capZero randZero 1).result = .ok 1 ∧
    (main capZero randZero 1).writes =
      ["000102030405060708090a0b0c0d0e0f 00112233445566778899aabbccddeeff 00000000000000000000000000000000\n"] ∧
    ("00000000000000000000000000000000" : String) ≠
      "69c4e0d86a7b0430d8cdb78070b4c55a" := by
  refine ⟨by decide, by decide, by decide⟩

/-- C1 (amended): the script performs no comparison of the known-answer
ciphertext with the canonical value `69c4e0d86a7b0430d8cdb78070b4c55a`.
Whenever the oracle call itself succeeds (exit status 0 and exactly 16
output bytes), the run with N = 1 is accepted: the reported count is 1
and the returned ciphertext — whatever its value — is emitted verbatim
as the third field of the first output line.  The run is flagged as
failed only when the oracle call fails. -/
theorem C1_kat_not_validated (cap : Cap) (rand : Nat → List Nat)
    (hrc : (cap kat_key katPtBytes).returncode = 0)
    (hlen : (cap kat_key katPtBytes).stdout.length = 16) :
    (main cap rand 1).result = .ok 1 ∧
    (main cap rand 1).writes =
      [kat_key ++ " " ++ kat_pt ++ " " ++
        bytesHex (cap kat_key katPtBytes).stdout ++ "\n"] := by
  rw [main_kat_only cap rand 1 (by decide) hrc hlen]
  exact ⟨rfl, rfl⟩

/-- Witness for `C1_kat_not_validated` at the concrete all-zero
capability. -/
theorem C1_kat_not_validated_witness :
    (main capZero randZero 1).result = .ok 1 ∧
    (main capZero randZero 1).writes =
      [kat_key ++ " " ++ kat_pt ++ " " ++
        bytesHex (capZero kat_key katPtBytes).stdout ++ "\n"] :=
  C1_kat_not_validated capZero randZero rfl (by decide)

/-- C2 counterexample: for the requested count N = 0 (< 1) the generator
does not fail: it still performs one oracle call, writes a (non-empty)
output file, and reports success with count 1. -/
theorem C2_counterexample :
    (main capZero randZero 0).oracleCalls = 1 ∧
    (main capZero randZero 0).writes ≠ [] ∧
    (main capZero randZero 0).result = .ok 1 := by
  refine ⟨by decide, by decide, by decide⟩

/-- C2 (amended): the script never validates the requested count; for
every N < 1 it behaves exactly as for N = 1: `range(n - 1)` is empty, so
the run still performs the known-answer oracle call and, when that call
succeeds, writes a one-line file containing only the known-answer vector
and reports a count of 1. -/
theorem C2_no_count_check (cap : Cap) (rand : Nat → List Nat) (n : Int)
    (hn : n < 1)
    (hrc : (cap kat_key katPtBytes).returncode = 0)
    (hlen : (cap kat_key katPtBytes).stdout.length = 16) :
    main cap rand n = main cap rand 1 ∧
    (main cap rand n).oracleCalls = 1 ∧
    (main cap rand n).result = .ok 1 ∧
    (main cap rand n).writes =
      [kat_key ++ " " ++ kat_pt ++ " " ++
        bytesHex (cap kat_key katPtBytes).stdout ++ "\n"] := by
  have h0 : (n - 1).toNat = 0 := by omega
  rw [main_kat_only cap rand n h0 hrc hlen,
    main_kat_only cap rand 1 (by decide) hrc hlen]
  exact ⟨rfl, rfl, rfl, rfl⟩

/-- Witness for `C2_no_count_check` at N = -3 with the concrete all-zero
capability. -/
theorem C2_no_count_check_witness :
    main capZero randZero (-3) = main capZero randZero 1 ∧
    (main capZero randZero (-3)).oracleCalls = 1 ∧
    (main capZero randZero (-3)).result = .ok 1 ∧
    (main capZero randZero (-3)).writes =
      [kat_key ++ " " ++ kat_pt ++ " " ++
        bytesHex (capZero kat_key katPtBytes).stdout ++ "\n"] :=
  C2_no_count_check capZero randZero (-3) (by decide) rfl (by decide)

/-- C3: for every N ≥ 1, when every oracle call succeeds the run writes
exactly one content to the output sink, of the form
`line₁ \n line₂ \n … \n lineN \n` — exactly N lines joined by single
newlines with one trailing newline (no trailing blank line, as every
line is non-empty) — and every line is three lowercase-hexadecimal
fields of exactly 32 characters separated by single spaces. -/
theorem C3_output_format (cap : Cap) (rand : Nat → List Nat) (n : Int)
    (hc : GoodCap cap) (hr : GoodRand rand) (hn : 1 ≤ n) :
    ∃ ls : List String,
      (main cap rand n).writes = [String.intercalate "\n" ls ++ "\n"] ∧
      ls.length = n.toNat ∧
      ∀ l ∈ ls, ∃ a b c, l = a ++ " " ++ b ++ " " ++ c ∧
        goodField a ∧ goodField b ∧ goodField c := by
  refine ⟨katLine cap :: (List.range (n - 1).toNat).map (lineAt cap rand),
    ?_, ?_, ?_⟩
  · rw [main_ok cap rand hc hr n]
  · simp only [List.length_cons, List.length_map, List.length_range]
    omega
  · intro l hl
    rcases List.mem_cons.mp hl with h | h
    · subst h
      exact ⟨kat_key, kat_pt, bytesHex (cap kat_key katPtBytes).stdout, rfl,
        goodField_kat_key, goodField_kat_pt,
        goodField_bytesHex _ (hc kat_key katPtBytes).2.1 (hc kat_key katPtBytes).2.2⟩
    · rcases List.mem_map.mp h with ⟨j, _, hj⟩
      subst hj
      refine ⟨bytesHex (rand (2 * j)), bytesHex (rand (2 * j + 1)),
        bytesHex (cap (bytesHex (rand (2 * j))) (rand (2 * j + 1))).stdout, rfl,
        goodField_bytesHex _ (hr (2 * j)).1 (hr (2 * j)).2,
        goodField_bytesHex _ (hr (2 * j + 1)).1 (hr (2 * j + 1)).2,
        goodField_bytesHex _ ?_ ?_⟩
      · exact (hc (bytesHex (rand (2 * j))) (rand (2 * j + 1))).2.1
      · exact (hc (bytesHex (rand (2 * j))) (rand (2 * j + 1))).2.2

/-- Witness for `C3_output_format` at N = 2 with the concrete all-zero
capability and randomness source. -/
theorem C3_output_format_witness :
    ∃ ls : List String,
      (main capZero randZero 2).writes = [String.intercalate "\n" ls ++ "\n"] ∧
      ls.length = (2 : Int).toNat ∧
      ∀ l ∈ ls, ∃ a b c, l = a ++ " " ++ b ++ " " ++ c ∧
        goodField a ∧ goodField b ∧ goodField c :=
  C3_output_format capZero randZero 2 goodCap_capZero goodRand_randZero (by decide)

/-- C4: for every N ≥ 1, when every oracle call succeeds, the first line
of the output always carries the fixed known-answer key
`000102030405060708090a0b0c0d0e0f` and plaintext
`00112233445566778899aabbccddeeff` regardless of N, and the remaining
N - 1 lines follow in generation order: the j-th random line (0-based)
is built from random draws 2j (key) and 2j+1 (plaintext) and the
oracle's answer for exactly that pair. -/
theorem C4_kat_first_then_order (cap : Cap) (rand : Nat → List Nat) (n : Int)
    (hc : GoodCap cap) (hr : GoodRand rand) (hn : 1 ≤ n) :
    ∃ (kat_ct : String) (rest : List String),
      (main cap rand n).writes =
        [String.intercalate "\n"
          ((kat_key ++ " " ++ kat_pt ++ " " ++ kat_ct) :: rest) ++ "\n"] ∧
      rest.length = n.toNat - 1 ∧
      ∀ j : Nat, (h : j < rest.length) →
        rest.get ⟨j, h⟩ =
          bytesHex (rand (2 * j)) ++ " " ++ bytesHex (rand (2 * j + 1)) ++ " " ++
            bytesHex (cap (bytesHex (rand (2 * j))) (rand (2 * j + 1))).stdout := by
  refine ⟨bytesHex (cap kat_key katPtBytes).stdout,
    (List.range (n - 1).toNat).map (lineAt cap rand), ?_, ?_, ?_⟩
  · rw [main_ok cap rand hc hr n]
    rfl
  · simp only [List.length_map, List.length_range]
    omega
  · intro j h
    simp only [List.get_eq_getElem, List.getElem_map, List.getElem_range]
    rfl

/-- Witness for `C4_kat_first_then_order` at N = 3 with the concrete
all-zero capability and randomness source. -/
theorem C4_kat_first_then_order_witness :
    ∃ (kat_ct : String) (rest : List String),
      (main capZero randZero 3).writes =
        [String.intercalate "\n"
          ((kat_key ++ " " ++ kat_pt ++ " " ++ kat_ct) :: rest) ++ "\n"] ∧
      rest.length = (3 : Int).toNat - 1 ∧
      ∀ j : Nat, (h : j < rest.length) →
        rest.get ⟨j, h⟩ =
          bytesHex (randZero (2 * j)) ++ " " ++ bytesHex (randZero (2 * j + 1)) ++ " " ++
            bytesHex (capZero (bytesHex (randZero (2 * j))) (randZero (2 * j + 1))).stdout :=
  C4_kat_first_then_order capZero randZero 3 goodCap_capZero goodRand_randZero
    (by decide)

/-- C5: whenever both hex inputs of the oracle adapter decode but the
decoded key or plaintext is not exactly 16 bytes, the adapter raises
(the `assert` fails) and the external encryption capability is invoked
zero times. -/
theorem C5_bad_length_fails_fast (cap : Cap) (key_hex pt_hex : String)
    (key pt : List Nat)
    (hk : bytes_fromhex key_hex = some key)
    (hp : bytes_fromhex pt_hex = some pt)
    (hbad : key.length ≠ 16 ∨ pt.length ≠ 16) :
    openssl_aes128_ecb_encrypt cap key_hex pt_hex =
      (.error .assertionError, 0) := by
  unfold openssl_aes128_ecb_encrypt
  rw [hk, hp]
  have hno : ¬ (key.length = 16 ∧ pt.length = 16) := by tauto
  simp [hno]

/-- Witness for `C5_bad_length_fails_fast` at a 1-byte key hex string. -/
theorem C5_bad_length_fails_fast_witness :
    openssl_aes128_ecb_encrypt capZero "00" kat_pt =
      (.error .assertionError, 0) :=
  C5_bad_length_fails_fast capZero "00" kat_pt [0] katPtBytes
    (by decide) (by decide) (Or.inl (by decide))

/-- C6: first conjunct — whenever the adapter returns normally, its
result is the hex encoding of exactly 16 bytes: 32 characters, all
lowercase hex (given that the capability's output consists of byte
values).  Second conjunct — whenever the external capability succeeds
(exit status 0) but returns output whose length is not 16 bytes, the
adapter raises (the output-length `assert` fails) and returns no
ciphertext. -/
theorem C6_output_length_checked :
    (∀ (cap : Cap) (kh ph ct : String) (c : Nat),
      (∀ kh2 pt2, ∀ b ∈ (cap kh2 pt2).stdout, b < 256) →
      openssl_aes128_ecb_encrypt cap kh ph = (.ok ct, c) →
      ct.length = 32 ∧ ct.data.all isLowerHexDigit = true) ∧
    (∀ (cap : Cap) (kh ph : String) (key pt : List Nat),
      bytes_fromhex kh = some key → bytes_fromhex ph = some pt →
      key.length = 16 → pt.length = 16 →
      (cap kh pt).returncode = 0 → (cap kh pt).stdout.length ≠ 16 →
      openssl_aes128_ecb_encrypt cap kh ph =
        (.error .assertionError, 1)) := by
  constructor
  · intro cap kh ph ct c hcap h
    unfold openssl_aes128_ecb_encrypt at h
    split at h
    · simp at h
    split at h
    · simp at h
    split at h
    · dsimp only at h
      split at h
      · simp at h
      split at h
      · rename_i pt hlen16
        rw [Prod.mk.injEq] at h
        obtain ⟨hct, -⟩ := h
        injection hct with hct
        constructor
        · rw [← hct, bytesHex_length]
          omega
        · rw [← hct]
          exact hexChars_all_lower _ (hcap _ _)
      · simp at h
    · simp at h
  · intro cap kh ph key pt hk hp hk16 hp16 hrc hlen
    unfold openssl_aes128_ecb_encrypt
    rw [hk, hp]
    simp [hk16, hp16, hrc, hlen]

/-- Witness for `C6_output_length_checked`: the first conjunct at the
all-zero capability (whose answer is 32 lowercase hex characters), the
second at a capability producing 15 bytes. -/
theorem C6_output_length_checked_witness :
    ((bytesHex (List.replicate 16 0)).length = 32 ∧
      (bytesHex (List.replicate 16 0)).data.all isLowerHexDigit = true) ∧
    openssl_aes128_ecb_encrypt capShort kat_key kat_pt =
      (.error .assertionError, 1) :=
  ⟨C6_output_length_checked.1 capZero kat_key kat_pt
      (bytesHex (List.replicate 16 0)) 1 capZero_stdout_bounded (by decide),
    C6_output_length_checked.2 capShort kat_key kat_pt katKeyBytes katPtBytes
      (by decide) (by decide) (by decide) (by decide) rfl (by decide)⟩

/-- C7: whenever the external capability is invoked (both inputs decode
to 16 bytes) and reports a non-zero exit status, the adapter raises a
`RuntimeError` whose message is the fixed text followed by the
capability's standard-error output — the diagnostic is propagated — and
no ciphertext is returned. -/
theorem C7_exec_failure_propagates (cap : Cap) (kh ph : String)
    (key pt : List Nat)
    (hk : bytes_fromhex kh = some key) (hp : bytes_fromhex ph = some pt)
    (hk16 : key.length = 16) (hp16 : pt.length = 16)
    (hrc : (cap kh pt).returncode ≠ 0) :
    openssl_aes128_ecb_encrypt cap kh ph =
      (.error (.runtimeError ("OpenSSL failed:\n" ++ (cap kh pt).stderr)), 1) ∧
    ∀ ct c, openssl_aes128_ecb_encrypt cap kh ph ≠ (.ok ct, c) := by
  have h := adapter_exec_failed cap kh ph key pt hk hp hk16 hp16 hrc
  refine ⟨h, ?_⟩
  intro ct c hcontra
  rw [h] at hcontra
  simp at hcontra

/-- Witness for `C7_exec_failure_propagates` at the always-failing
capability, whose stderr text `bad decrypt` appears in the raised
message. -/
theorem C7_exec_failure_propagates_witness :
    openssl_aes128_ecb_encrypt capFail kat_key kat_pt =
      (.error (.runtimeError "OpenSSL failed:\nbad decrypt"), 1) ∧
    ∀ ct c, openssl_aes128_ecb_encrypt capFail kat_key kat_pt ≠ (.ok ct, c) :=
  C7_exec_failure_propagates capFail kat_key kat_pt katKeyBytes katPtBytes
    (by decide) (by decide) (by decide) (by decide) (by decide)

/-- C8: the output sink is written exactly once, in full, at the very
end — for every capability, randomness source and count: if any oracle
call fails (the known-answer call or any random one) the run aborts with
that error and the write trace is empty (the sink is untouched), and if
the run succeeds the write trace is exactly one full content. -/
theorem C8_single_final_write (cap : Cap) (rand : Nat → List Nat) (n : Int) :
    (∀ e, (main cap rand n).result = .error e → (main cap rand n).writes = []) ∧
    (∀ c, (main cap rand n).result = .ok c →
      ∃ content, (main cap rand n).writes = [content]) := by
  rcases hx : openssl_aes128_ecb_encrypt cap kat_key kat_pt with ⟨r1, c1⟩
  cases r1 with
  | error e =>
    unfold main
    rw [hx]
    exact ⟨fun _ _ => rfl, fun c hc => by simp at hc⟩
  | ok kat_ct =>
    rcases hy : genRandomLines cap rand (n - 1).toNat 0 with ⟨r2, c2⟩
    cases r2 with
    | error e =>
      unfold main
      rw [hx, hy]
      exact ⟨fun _ _ => rfl, fun c hc => by simp at hc⟩
    | ok rest =>
      unfold main
      rw [hx, hy]
      exact ⟨fun e he => by simp at he, fun c _ => ⟨_, rfl⟩⟩

/-- Witness for `C8_single_final_write`: a failing oracle leaves the
sink untouched, a succeeding one produces exactly one write. -/
theorem C8_single_final_write_witness :
    (main capFail randZero 3).writes = [] ∧
    ∃ content, (main capZero randZero 3).writes = [content] :=
  ⟨(C8_single_final_write capFail randZero 3).1
      (.runtimeError ("OpenSSL failed:\n" ++ "bad decrypt")) (by decide),
    (C8_single_final_write capZero randZero 3).2
      ((3 : Int).toNat) (by decide)⟩

/-- C9: for every N ≥ 1, a successful run (well-behaved capability and
randomness source) invokes the external capability exactly N times — one
call for the known-answer vector and one per random vector — and reports
a written-vector count equal to N. -/
theorem C9_call_count_and_report (cap : Cap) (rand : Nat → List Nat) (n : Int)
    (hc : GoodCap cap) (hr : GoodRand rand) (hn : 1 ≤ n) :
    (main cap rand n).oracleCalls = n.toNat ∧
    (main cap rand n).result = .ok n.toNat := by
  rw [main_ok cap rand hc hr n]
  constructor
  · show 1 + (n - 1).toNat = n.toNat
    omega
  · show Except.ok (1 + (n - 1).toNat) = Except.ok n.toNat
    exact congrArg Except.ok (by omega)

/-- Witness for `C9_call_count_and_report` at N = 5 with the concrete
all-zero capability and randomness source. -/
theorem C9_call_count_and_report_witness :
    (main capZero randZero 5).oracleCalls = (5 : Int).toNat ∧
    (main capZero randZero 5).result = .ok (5 : Int).toNat :=
  C9_call_count_and_report capZero randZero 5 goodCap_capZero goodRand_randZero
    (by decide)

/-- C10: the generator is deterministic in its inputs: two runs with the
same count, randomness sources that agree on every draw, and
capabilities that agree on every key/plaintext pair produce identical
outcomes — the same write trace (byte for byte), the same call count and
the same reported result. -/
theorem C10_deterministic (cap1 cap2 : Cap) (rand1 rand2 : Nat → List Nat)
    (n : Int)
    (hcap : ∀ kh pt, cap1 kh pt = cap2 kh pt)
    (hrand : ∀ i, rand1 i = rand2 i) :
    main cap1 rand1 n = main cap2 rand2 n := by
  have hadapter : ∀ kh ph, openssl_aes128_ecb_encrypt cap1 kh ph =
      openssl_aes128_ecb_encrypt cap2 kh ph := by
    intro kh ph
    unfold openssl_aes128_ecb_encrypt
    simp only [hcap]
  have hgen : ∀ k i, genRandomLines cap1 rand1 k i =
      genRandomLines cap2 rand2 k i := by
    intro k
    induction k with
    | zero => intro i; rfl
    | succ k ih =>
      intro i
      simp only [genRandomLines, hrand, hadapter, ih]
  unfold main
  rw [hadapter, hgen]

/-- Witness for `C10_deterministic` at two definitionally equal but
syntactically different capability/randomness pairs. -/
theorem C10_deterministic_witness :
    main capZero randZero 4 = main capZeroAlt randZeroAlt 4 :=
  C10_deterministic capZero capZeroAlt randZero randZeroAlt 4
    (fun _ _ => rfl) (fun _ => rfl)

end GenVectors
